import Mathlib

/-!
Verification of the user-management view of the pai webportal
(src/webportal/src/app/user/fabric/userView/index.jsx) and of the
directory group-lookup helper bundled with it.

The view code (getSelectedUsers, the pagination reset effect, removeUsers)
is embedded directly from the source.  The Filter, Ordering and Pagination
classes are imported by the view but their source files are not part of the
snapshot, so they are modelled from the specification text and marked as
such in their doc comments.
-/

namespace PaiUserView

/-- A user record as read by this view: a unique username, the admin flag
and the set of virtual-cluster names the account belongs to. -/
structure User where
  username : String
  admin : Bool
  virtualClusters : List String
deriving DecidableEq, Repr

/-- Lower-case a string character by character (models JS toLowerCase for
the ASCII usernames this view handles). -/
def lowerStr (s : String) : String := ⟨s.data.map Char.toLower⟩

/-- Boolean test that the first character list starts with the second. -/
def charsStartWith : List Char → List Char → Bool
  | _, [] => true
  | [], _ :: _ => false
  | c :: cs, d :: ds => c == d && charsStartWith cs ds

/-- Boolean substring containment on character lists. -/
def charsContain : List Char → List Char → Bool
  | [], pat => pat.isEmpty
  | c :: cs, pat => charsStartWith (c :: cs) pat || charsContain cs pat

/-- Substring containment on strings. -/
def strIncludes (s pat : String) : Bool := charsContain s.data pat.data

/-- Modelled from the spec: the Filter predicate object (its class source
file, userView/Filter, is imported by the view but missing from the
snapshot).  Per the data-model section, each field is optional and an
absent field imposes no constraint: a keyword matched case-insensitively
as a substring of the username, a tri-state admin flag, and a
virtual-cluster membership test. -/
structure Filter where
  keyword : Option String := none
  admin : Option Bool := none
  virtualCluster : Option String := none
deriving DecidableEq, Repr

/-- Whether a single user passes every configured predicate field of the
filter. -/
def Filter.matchesUser (f : Filter) (u : User) : Bool :=
  (match f.keyword with
   | none => true
   | some k => strIncludes (lowerStr u.username) (lowerStr k)) &&
  (match f.admin with
   | none => true
   | some b => u.admin == b) &&
  (match f.virtualCluster with
   | none => true
   | some vc => u.virtualClusters.contains vc)

/-- Modelled from the spec: Filter.apply returns the subsequence of users
for which every configured predicate field matches, preserving order. -/
def Filter.apply (f : Filter) (users : List User) : List User :=
  users.filter f.matchesUser

/-- The sort keys the view can order by (the exact key set is
configuration; these are the representative keys named by the spec). -/
inductive SortKey
  | username
  | admin
  | vcCount
deriving DecidableEq, Repr

/-- Boolean comparator for a sort key (not-after relation). -/
def SortKey.leUser : SortKey → User → User → Bool
  | .username, a, b => decide (a.username ≤ b.username)
  | .admin, a, b => !a.admin || b.admin
  | .vcCount, a, b => decide (a.virtualClusters.length ≤ b.virtualClusters.length)

/-- Modelled from the spec: the Ordering object (its class source file,
userView/Ordering, is imported by the view but missing from the snapshot).
It holds an optional sort key and a direction. -/
structure Ordering where
  key : Option SortKey := none
  descending : Bool := false
deriving DecidableEq, Repr

/-- Modelled from the spec: with no key configured apply is the identity;
otherwise it is a stable sort by the configured comparator, reversed when
descending. -/
def Ordering.apply (o : Ordering) (users : List User) : List User :=
  match o.key with
  | none => users
  | some k =>
    users.mergeSort (fun a b => if o.descending then k.leUser b a else k.leUser a b)

/-- Modelled from the spec: the Pagination object (its class source file,
userView/Pagination, is imported by the view but missing from the
snapshot).  It holds the page size and the zero-based current page. -/
structure Pagination where
  itemsPerPage : Nat := 20
  currentPage : Nat := 0
deriving DecidableEq, Repr

/-- Modelled from the spec: Pagination.apply returns the slice
of the input from currentPage * itemsPerPage (inclusive) to
min (length, (currentPage + 1) * itemsPerPage) (exclusive). -/
def Pagination.apply (p : Pagination) (users : List User) : List User :=
  (users.take (min users.length ((p.currentPage + 1) * p.itemsPerPage))).drop
    (p.currentPage * p.itemsPerPage)

/-- The slice of the view state that selection resolution reads:
the all-selected flag, the explicitly tracked selection, the debounced
filtered list (null until the first filter computation lands), and the
ordering and pagination objects. -/
structure ViewState where
  allSelected : Bool
  selectedUsers : List User
  filteredUsers : Option (List User)
  ordering : Ordering
  pagination : Pagination

/-- Embedded from the source view: if allSelected it pages the ordered
filtered list (null coalesced to the empty list), otherwise it returns the
tracked selection as is. -/
def getSelectedUsers (s : ViewState) : List User :=
  if s.allSelected then
    s.pagination.apply (s.ordering.apply (s.filteredUsers.getD []))
  else
    s.selectedUsers

/-- Embedded from the source view effect on filteredUsers changes:
a fresh Pagination with the same itemsPerPage and page zero. -/
def paginationOnFilteredUsersChange (p : Pagination) : Pagination :=
  { itemsPerPage := p.itemsPerPage, currentPage := 0 }

/-- Events that can replace the pagination state of the view: the
filtered-list-changed effect taken from the source, or any other
setPagination call (page turns, page-size changes). -/
inductive PageEvent
  | filteredUsersChanged
  | setPagination (q : Pagination)

/-- One transition of the pagination state. -/
def stepPagination (p : Pagination) : PageEvent → Pagination
  | .filteredUsersChanged => paginationOnFilteredUsersChange p
  | .setPagination q => q

/-- A JavaScript value as the remove flow observes it: either an instance
of Error (carrying its String(e) rendering) or any other value. -/
inductive JsValue
  | errorInstance (s : String)
  | plainValue (s : String)
deriving DecidableEq, Repr

/-- The instanceof Error test used by the remove flow. -/
def JsValue.isError : JsValue → Bool
  | .errorInstance _ => true
  | .plainValue _ => false

/-- The String(v) rendering appended to the summary message. -/
def JsValue.display : JsValue → String
  | .errorInstance s => s
  | .plainValue s => s

/-- How a single removeUserRequest promise settles: fulfilled with a value
or rejected with a value (the rejected value need not be an Error). -/
inductive RemoveOutcome
  | resolved (v : JsValue)
  | rejected (v : JsValue)
deriving DecidableEq, Repr

/-- Embedded from the source: the per-request catch clause maps a
rejection to its reason as an ordinary value, so every request settles to
a value and none can short-circuit the joint wait. -/
def settleOne : RemoveOutcome → JsValue
  | .resolved v => v
  | .rejected v => v

/-- The list Promise.all resolves with: one settled value per selected
user, in selection order, each determined only by its own outcome. -/
def settledResults (selected : List User) (outcomes : User → RemoveOutcome) :
    List JsValue :=
  selected.map fun u => settleOne (outcomes u)

/-- Embedded from the source: the failures are the settled values that are
instanceof Error. -/
def removeErrors (results : List JsValue) : List JsValue :=
  results.filter JsValue.isError

/-- Embedded from the source: the summary message built after all requests
settle. -/
def removeSummary (selected : List User) (results : List JsValue) : String :=
  let errors := removeErrors results
  let base := "Remove " ++ (if selected.length == 1 then "user" else "users") ++ " "
  if errors.length == 0 then
    base ++ "successfully."
  else
    errors.foldl (fun m e => m ++ "\n" ++ e.display)
      (base ++ "with " ++ toString errors.length ++ " failed.")

/-- The externally visible steps the remove continuation performs. -/
inductive UIAction
  | hideLoading
  | showMessage (text : String)
  | refreshAllUsers
deriving DecidableEq, Repr

/-- Embedded from the source: after every request has settled the
continuation hides the loading mask, shows the summary, and on dismissal
refreshes the whole user list. -/
def removeUsersSettled (selected : List User) (outcomes : User → RemoveOutcome) :
    List UIAction :=
  [UIAction.hideLoading,
   UIAction.showMessage (removeSummary selected (settledResults selected outcomes)),
   UIAction.refreshAllUsers]

/-- How many full-list refreshes an action sequence triggers. -/
def countRefresh (actions : List UIAction) : Nat :=
  (actions.filter fun a => a == UIAction.refreshAllUsers).length

/-- One record of a memberOf page: may or may not carry a display name; an
empty string counts as absent because JS truthiness rejects it. -/
structure GroupItem where
  displayName : Option String
deriving DecidableEq, Repr

/-- One page of the directory API response: the value array and the
optional continuation link. -/
structure GraphResponse where
  value : List GroupItem
  odataNextLink : Option String
deriving DecidableEq, Repr

/-- The configuration object built by initConfig. -/
structure GraphConfig where
  msGraphAPI : String
  authorization : String
deriving DecidableEq, Repr

/-- Embedded from the source initConfig. -/
def initConfig (msGraphUrl accessToken : String) : GraphConfig :=
  { msGraphAPI := msGraphUrl ++ "v1.0/me/memberOf",
    authorization := "Bearer " ++ accessToken }

/-- JS truthiness filter on an optional display name. -/
def truthyName : Option String → Option String
  | none => none
  | some s => if s = "" then none else some s

/-- Embedded from the source: the nested loop that flattens the
accumulated pages into the list of truthy display names, in page order. -/
def collectGroupNames (pages : List (List GroupItem)) : List String :=
  pages.foldl (fun gl blk => gl ++ blk.filterMap fun gi => truthyName gi.displayName) []

/-- Embedded from the source while loop: fetch the current URL; on an
exception stop with it; otherwise record the value array and continue with
the continuation link until a response lacks one.  Fuel bounds the
unbounded source loop; none models running out of fuel. -/
def fetchPagesLoop (fetch : String → Except JsValue GraphResponse) :
    Nat → String → List (List GroupItem) → Option (Except JsValue (List (List GroupItem)))
  | 0, _, _ => none
  | fuel + 1, url, acc =>
    match fetch url with
    | .error e => some (.error e)
    | .ok resp =>
      match resp.odataNextLink with
      | some nxt => fetchPagesLoop fetch fuel nxt (acc ++ [resp.value])
      | none => some (.ok (acc ++ [resp.value]))

/-- Embedded from the source getUserGroupList: run the page loop from the
configured memberOf URL, rethrow any failure unchanged, and otherwise
collect the truthy display names of all pages. -/
def getUserGroupList (fetch : String → Except JsValue GraphResponse) (fuel : Nat)
    (username : String) (config : GraphConfig) : Option (Except JsValue (List String)) :=
  match fetchPagesLoop fetch fuel config.msGraphAPI [] with
  | none => none
  | some (.error e) => some (.error e)
  | some (.ok pages) => some (.ok (collectGroupNames pages))

/-- The sequence of URLs the loop requests, in order: mirrors the
axios.get calls of the while loop including the final failing one. -/
def requestTrace (fetch : String → Except JsValue GraphResponse) :
    Nat → String → List String
  | 0, _ => []
  | fuel + 1, url =>
    url :: match fetch url with
      | .error _ => []
      | .ok resp =>
        match resp.odataNextLink with
        | some nxt => requestTrace fetch fuel nxt
        | none => []

/-- The claim-level description of a successful paginated fetch: starting
at a URL, each response links to the next URL, and the last response lacks
the continuation field.  Carries the pages and the URLs in fetch order. -/
inductive FetchChain (fetch : String → Except JsValue GraphResponse) :
    String → List GraphResponse → List String → Prop
  | last (url : String) (r : GraphResponse) :
      fetch url = .ok r → r.odataNextLink = none →
      FetchChain fetch url [r] [url]
  | step (url nxt : String) (r : GraphResponse) (rs : List GraphResponse)
      (us : List String) :
      fetch url = .ok r → r.odataNextLink = some nxt →
      FetchChain fetch nxt rs us → FetchChain fetch url (r :: rs) (url :: us)

/-- The claim-level description of a fetch sequence whose last request
fails: zero or more linked successful pages followed by a URL whose fetch
raises e.  Carries the URLs requested, in order, the failing one last. -/
inductive FetchFails (fetch : String → Except JsValue GraphResponse) :
    String → JsValue → List String → Prop
  | here (url : String) (e : JsValue) :
      fetch url = .error e → FetchFails fetch url e [url]
  | step (url nxt : String) (r : GraphResponse) (e : JsValue) (us : List String) :
      fetch url = .ok r → r.odataNextLink = some nxt →
      FetchFails fetch nxt e us → FetchFails fetch url e (url :: us)

/-! Helper lemmas shared by the claim theorems. -/

theorem ordering_apply_nil (o : Ordering) : o.apply [] = [] := by
  unfold Ordering.apply
  cases o.key with
  | none => rfl
  | some k => simp [List.mergeSort_nil]

theorem pagination_apply_nil (p : Pagination) : p.apply [] = [] := by
  simp [Pagination.apply]

theorem mem_of_mem_pagination_apply {p : Pagination} {l : List User} {u : User}
    (h : u ∈ p.apply l) : u ∈ l :=
  List.mem_of_mem_take (List.mem_of_mem_drop h)

theorem mem_of_mem_ordering_apply {o : Ordering} {l : List User} {u : User}
    (h : u ∈ o.apply l) : u ∈ l := by
  unfold Ordering.apply at h
  cases hk : o.key with
  | none => rw [hk] at h; exact h
  | some k =>
    rw [hk] at h
    exact (List.mergeSort_perm l _).mem_iff.mp h

/-- Claim C8: a Filter with every predicate field unset is the identity for
apply: for every user list L, applying the empty Filter returns the same
elements of L in the original order. -/
theorem empty_filter_identity (L : List User) :
    Filter.apply ⟨none, none, none⟩ L = L := by
  apply List.filter_eq_self.mpr
  intro u _
  simp [Filter.matchesUser]

/-- Claim C4: whenever the filtered user list changes, the view state
transitions to a Pagination whose currentPage is 0 while itemsPerPage is
kept unchanged: after any event history ending in a filtered-list change,
currentPage is 0 and itemsPerPage equals what it was before the change. -/
theorem pagination_reset_on_filtered_change (p : Pagination) (evs : List PageEvent) :
    ((evs ++ [PageEvent.filteredUsersChanged]).foldl stepPagination p).currentPage = 0
    ∧ ((evs ++ [PageEvent.filteredUsersChanged]).foldl stepPagination p).itemsPerPage
        = (evs.foldl stepPagination p).itemsPerPage := by
  rw [List.foldl_append]
  exact ⟨rfl, rfl⟩

/-- Claim C7: for every user sequence L, page index p and page size n,
Pagination.apply returns exactly the slice from p * n to
min (length L) ((p + 1) * n) — equivalently drop p * n then take n — and in
particular returns the empty sequence whenever p * n is at least the
length of L. -/
theorem pagination_apply_is_slice (p n : Nat) (L : List User) :
    Pagination.apply ⟨n, p⟩ L = (L.take (min L.length ((p + 1) * n))).drop (p * n)
    ∧ Pagination.apply ⟨n, p⟩ L = (L.drop (p * n)).take n
    ∧ (L.length ≤ p * n → Pagination.apply ⟨n, p⟩ L = []) := by
  have h2 : Pagination.apply ⟨n, p⟩ L = (L.drop (p * n)).take n := by
    show (L.take (min L.length ((p + 1) * n))).drop (p * n) = (L.drop (p * n)).take n
    rw [List.drop_take]
    apply List.take_eq_take.mpr
    rw [List.length_drop]
    have hnn : (p + 1) * n = p * n + n := by ring
    omega
  refine ⟨rfl, h2, fun hle => ?_⟩
  rw [h2, List.drop_eq_nil_of_le hle, List.take_nil]

/-- Claim C7 witness: with itemsPerPage 20 and currentPage 3 over a
45-element list, the page start 60 is past the end and the result is
empty. -/
theorem pagination_apply_is_slice_witness :
    (List.replicate 45 (User.mk "u" false [])).length ≤ 3 * 20
    ∧ Pagination.apply ⟨20, 3⟩ (List.replicate 45 (User.mk "u" false [])) = [] :=
  ⟨by decide,
   (pagination_apply_is_slice 3 20 (List.replicate 45 (User.mk "u" false []))).2.2
     (by decide)⟩

/-- Claim C10: when the filtered-user list is still unset (null) and the
all-selected flag is active, getSelectedUsers pages over the empty list
and returns the empty sequence rather than failing. -/
theorem getSelectedUsers_total_on_null_filtered (s : ViewState)
    (h1 : s.allSelected = true) (h2 : s.filteredUsers = none) :
    getSelectedUsers s = [] := by
  unfold getSelectedUsers
  rw [h1, h2]
  simp [ordering_apply_nil, pagination_apply_nil]

/-- Claim C10 witness: a concrete state with a null filtered list and the
all-selected flag set resolves to the empty selection. -/
theorem getSelectedUsers_total_on_null_filtered_witness :
    getSelectedUsers ⟨true, [], none, ⟨none, false⟩, ⟨20, 0⟩⟩ = [] :=
  getSelectedUsers_total_on_null_filtered ⟨true, [], none, ⟨none, false⟩, ⟨20, 0⟩⟩ rfl rfl

/-- Claim C1: when the all-selected flag is active, getSelectedUsers
returns the current filtered list ordered then paginated; otherwise it
returns the tracked selection verbatim; and with an active filter every
user of the select-all result satisfies the filter and comes from the
roster the filter was applied to — never the raw user list. -/
theorem getSelectedUsers_resolution (s : ViewState) :
    (s.allSelected = true →
      getSelectedUsers s
        = s.pagination.apply (s.ordering.apply (s.filteredUsers.getD [])))
    ∧ (s.allSelected = false → getSelectedUsers s = s.selectedUsers)
    ∧ (∀ (f : Filter) (roster : List User), s.allSelected = true →
        s.filteredUsers = some (f.apply roster) →
        ∀ u ∈ getSelectedUsers s, f.matchesUser u = true ∧ u ∈ roster) := by
  refine ⟨fun h => by simp [getSelectedUsers, h], fun h => by simp [getSelectedUsers, h],
    fun f roster hA hF u hu => ?_⟩
  rw [getSelectedUsers, hA] at hu
  simp only [if_true, hF, Option.getD_some] at hu
  have h1 := mem_of_mem_ordering_apply (mem_of_mem_pagination_apply hu)
  unfold Filter.apply at h1
  exact ⟨(List.mem_filter.mp h1).2, (List.mem_filter.mp h1).1⟩

/-- Claim C1 witness: with an active admin-only filter over a two-user
roster, select-all resolves to users that pass the filter; the admin user
alice is in the resolved page and indeed matches the filter and belongs
to the roster. -/
theorem getSelectedUsers_resolution_witness :
    Filter.matchesUser ⟨none, some true, none⟩ ⟨"alice", true, []⟩ = true
    ∧ User.mk "alice" true [] ∈ [User.mk "alice" true [], User.mk "bob" false []] :=
  (getSelectedUsers_resolution
      ⟨true, [],
        some (Filter.apply ⟨none, some true, none⟩
          [User.mk "alice" true [], User.mk "bob" false []]),
        ⟨none, false⟩, ⟨20, 0⟩⟩).2.2
    ⟨none, some true, none⟩ [User.mk "alice" true [], User.mk "bob" false []]
    rfl rfl ⟨"alice", true, []⟩ (by decide)

/-- Claim C2: batch removal settles one result per selected user: the
settled list has exactly one entry per user, the entry at each position is
determined solely by that user-s own outcome (so one failure cannot abort
or short-circuit the others), and the continuation runs the summary over
the fully collected settled list. -/
theorem removeUsers_fanout_isolation (selected : List User)
    (outcomes : User → RemoveOutcome) :
    (settledResults selected outcomes).length = selected.length
    ∧ (∀ (i : Nat) (u : User), selected[i]? = some u →
        (settledResults selected outcomes)[i]? = some (settleOne (outcomes u)))
    ∧ removeUsersSettled selected outcomes
        = [UIAction.hideLoading,
           UIAction.showMessage (removeSummary selected (settledResults selected outcomes)),
           UIAction.refreshAllUsers] := by
  refine ⟨List.length_map _ _, fun i u h => ?_, rfl⟩
  simp [settledResults, List.getElem?_map, h]

/-- Claim C2 witness: with two selected users where the first request
rejects, the first settled entry is exactly the settlement of the first
user-s own outcome. -/
theorem removeUsers_fanout_isolation_witness :
    ([User.mk "alice" false [], User.mk "bob" false []][0]? = some (User.mk "alice" false []))
    ∧ (settledResults [User.mk "alice" false [], User.mk "bob" false []]
        (fun u => if u.username = "alice"
          then RemoveOutcome.rejected (JsValue.errorInstance "Error: boom")
          else RemoveOutcome.resolved (JsValue.plainValue "ok")))[0]?
        = some (settleOne
            ((fun u => if u.username = "alice"
              then RemoveOutcome.rejected (JsValue.errorInstance "Error: boom")
              else RemoveOutcome.resolved (JsValue.plainValue "ok"))
              (User.mk "alice" false []))) :=
  ⟨by decide,
   (removeUsers_fanout_isolation [User.mk "alice" false [], User.mk "bob" false []]
      (fun u => if u.username = "alice"
        then RemoveOutcome.rejected (JsValue.errorInstance "Error: boom")
        else RemoveOutcome.resolved (JsValue.plainValue "ok"))).2.1
     0 (User.mk "alice" false []) (by decide)⟩

/-- Claim C9: the failure count of the batch-remove summary counts only
settled values that are instances of Error, so when every settled value
fails the instanceof Error test — including promises that rejected with a
non-Error value — the summary reports success. -/
theorem nonError_rejection_counted_success (selected : List User)
    (outcomes : User → RemoveOutcome)
    (h : ∀ u ∈ selected, (settleOne (outcomes u)).isError = false) :
    removeErrors (settledResults selected outcomes) = []
    ∧ removeSummary selected (settledResults selected outcomes)
        = "Remove " ++ (if selected.length = 1 then "user" else "users")
          ++ " " ++ "successfully." := by
  have he : removeErrors (settledResults selected outcomes) = [] := by
    apply List.filter_eq_nil_iff.mpr
    intro v hv
    obtain ⟨u, hu, rfl⟩ := List.mem_map.mp hv
    simp [h u hu]
  refine ⟨he, ?_⟩
  unfold removeSummary
  rw [he]
  by_cases h1 : selected.length = 1 <;>
    simp [h1, String.append_assoc]

/-- Claim C9 witness: a single remove request that rejects with a plain
string is counted as a success and the summary reads successfully despite
the rejection. -/
theorem nonError_rejection_counted_success_witness :
    removeSummary [User.mk "carol" false []]
        (settledResults [User.mk "carol" false []]
          (fun _ => RemoveOutcome.rejected (JsValue.plainValue "denied")))
      = "Remove user successfully." :=
  ((nonError_rejection_counted_success [User.mk "carol" false []]
      (fun _ => RemoveOutcome.rejected (JsValue.plainValue "denied"))
      (by decide)).2).trans (by decide)

theorem string_foldl_append_shift (xs : List String) (a b : String) :
    xs.foldl (fun r s => r ++ s) (a ++ b) = a ++ xs.foldl (fun r s => r ++ s) b := by
  induction xs generalizing b with
  | nil => simp
  | cons x xs ih => simp only [List.foldl_cons]; rw [String.append_assoc, ih]

theorem string_join_cons (x : String) (xs : List String) :
    String.join (x :: xs) = x ++ String.join xs := by
  show List.foldl (fun r s => r ++ s) ("" ++ x) xs = x ++ String.join xs
  have hx : ("" : String) ++ x = x ++ "" := by
    simp
  rw [hx, string_foldl_append_shift]
  rfl

theorem foldl_display_append (l : List JsValue) (b : String) :
    l.foldl (fun m e => m ++ "\n" ++ e.display) b
      = b ++ String.join (l.map fun e => "\n" ++ e.display) := by
  induction l generalizing b with
  | nil => simp [String.join]
  | cons x xs ih =>
    simp only [List.foldl_cons, List.map_cons, string_join_cons, ih]
    rw [← String.append_assoc, ← String.append_assoc]

/-- Claim C3: after all remove requests settle, the summary is exactly the
success sentence when zero settled values are failures, and exactly the
failure sentence with the failure count followed by one newline-prefixed
error rendering per failure otherwise, with the singular noun exactly when
one user was selected; and the continuation triggers exactly one full
user-list refresh regardless of the number of failures. -/
theorem removeUsers_summary_and_refresh (selected : List User)
    (outcomes : User → RemoveOutcome) :
    ((removeErrors (settledResults selected outcomes)).length = 0 →
      removeSummary selected (settledResults selected outcomes)
        = "Remove " ++ (if selected.length = 1 then "user" else "users")
          ++ " " ++ "successfully.")
    ∧ (0 < (removeErrors (settledResults selected outcomes)).length →
      removeSummary selected (settledResults selected outcomes)
        = "Remove " ++ (if selected.length = 1 then "user" else "users")
          ++ " " ++ "with "
          ++ toString (removeErrors (settledResults selected outcomes)).length
          ++ " failed."
          ++ String.join ((removeErrors (settledResults selected outcomes)).map
              fun e => "\n" ++ e.display))
    ∧ countRefresh (removeUsersSettled selected outcomes) = 1 := by
  refine ⟨fun h0 => ?_, fun hpos => ?_, ?_⟩
  · unfold removeSummary
    rw [List.length_eq_zero.mp h0]
    by_cases h1 : selected.length = 1 <;> simp [h1, String.append_assoc]
  · have hz : (removeErrors (settledResults selected outcomes)).length ≠ 0 :=
      Nat.pos_iff_ne_zero.mp hpos
    have hne : ((removeErrors (settledResults selected outcomes)).length == 0) = false := by
      simpa using hz
    unfold removeSummary
    simp only [hne, Bool.false_eq_true, if_false, foldl_display_append]
    by_cases h1 : selected.length = 1 <;> simp [h1, String.append_assoc]
  · rfl

/-- Claim C3 witness: removing three users where exactly the second
request fails yields the summary sentence with one failure and the error
text on its own line, and exactly one list refresh. -/
theorem removeUsers_summary_and_refresh_witness :
    0 < (removeErrors (settledResults
          [User.mk "ann" false [], User.mk "ben" false [], User.mk "cy" false []]
          (fun u => if u.username = "ben"
            then RemoveOutcome.rejected (JsValue.errorInstance "Error: bad")
            else RemoveOutcome.resolved (JsValue.plainValue "ok")))).length
    ∧ removeSummary
        [User.mk "ann" false [], User.mk "ben" false [], User.mk "cy" false []]
        (settledResults
          [User.mk "ann" false [], User.mk "ben" false [], User.mk "cy" false []]
          (fun u => if u.username = "ben"
            then RemoveOutcome.rejected (JsValue.errorInstance "Error: bad")
            else RemoveOutcome.resolved (JsValue.plainValue "ok")))
        = "Remove users with 1 failed.\nError: bad"
    ∧ countRefresh (removeUsersSettled
        [User.mk "ann" false [], User.mk "ben" false [], User.mk "cy" false []]
        (fun u => if u.username = "ben"
          then RemoveOutcome.rejected (JsValue.errorInstance "Error: bad")
          else RemoveOutcome.resolved (JsValue.plainValue "ok"))) = 1 :=
  ⟨by decide,
   ((removeUsers_summary_and_refresh
        [User.mk "ann" false [], User.mk "ben" false [], User.mk "cy" false []]
        (fun u => if u.username = "ben"
          then RemoveOutcome.rejected (JsValue.errorInstance "Error: bad")
          else RemoveOutcome.resolved (JsValue.plainValue "ok"))).2.1
      (by decide)).trans (by decide),
   (removeUsers_summary_and_refresh
      [User.mk "ann" false [], User.mk "ben" false [], User.mk "cy" false []]
      (fun u => if u.username = "ben"
        then RemoveOutcome.rejected (JsValue.errorInstance "Error: bad")
        else RemoveOutcome.resolved (JsValue.plainValue "ok"))).2.2⟩

theorem fetchPagesLoop_of_chain {fetch : String → Except JsValue GraphResponse}
    {url : String} {rs : List GraphResponse} {us : List String}
    (h : FetchChain fetch url rs us) :
    ∀ (acc : List (List GroupItem)) (fuel : Nat), us.length ≤ fuel →
      fetchPagesLoop fetch fuel url acc
        = some (.ok (acc ++ rs.map GraphResponse.value)) := by
  induction h with
  | last url r hf hn =>
    intro acc fuel hfuel
    cases fuel with
    | zero => simp at hfuel
    | succ f => simp [fetchPagesLoop, hf, hn]
  | step url nxt r rs us hf hn hc ih =>
    intro acc fuel hfuel
    cases fuel with
    | zero => simp at hfuel
    | succ f =>
      have hf' : us.length ≤ f := by
        simp only [List.length_cons] at hfuel
        omega
      simp [fetchPagesLoop, hf, hn, ih (acc ++ [r.value]) f hf', List.append_assoc]

theorem requestTrace_of_chain {fetch : String → Except JsValue GraphResponse}
    {url : String} {rs : List GraphResponse} {us : List String}
    (h : FetchChain fetch url rs us) :
    ∀ fuel : Nat, us.length ≤ fuel → requestTrace fetch fuel url = us := by
  induction h with
  | last url r hf hn =>
    intro fuel hfuel
    cases fuel with
    | zero => simp at hfuel
    | succ f => simp [requestTrace, hf, hn]
  | step url nxt r rs us hf hn hc ih =>
    intro fuel hfuel
    cases fuel with
    | zero => simp at hfuel
    | succ f =>
      have hf' : us.length ≤ f := by
        simp only [List.length_cons] at hfuel
        omega
      simp [requestTrace, hf, hn, ih f hf']

theorem collectGroupNames_eq_flatMap (pages : List (List GroupItem)) :
    collectGroupNames pages
      = pages.flatMap fun blk => blk.filterMap fun gi => truthyName gi.displayName := by
  have hgen : ∀ (ps : List (List GroupItem)) (init : List String),
      ps.foldl (fun gl blk => gl ++ blk.filterMap fun gi => truthyName gi.displayName) init
        = init ++ ps.flatMap fun blk => blk.filterMap fun gi => truthyName gi.displayName := by
    intro ps
    induction ps with
    | nil => intro init; simp
    | cons b bs ih =>
      intro init
      simp [List.foldl_cons, List.flatMap_cons, ih, List.append_assoc]
  simpa [collectGroupNames] using hgen pages []

/-- Claim C5: when the directory responses form a chain linked by the
continuation field starting at the configured memberOf URL, the lookup
requests exactly those URLs in order and returns the concatenation, in
fetch order, of the display names of all returned group records, omitting
every record whose display name is absent or falsy. -/
theorem getUserGroupList_concatenates_pages
    (fetch : String → Except JsValue GraphResponse) (fuel : Nat)
    (username : String) (config : GraphConfig)
    (rs : List GraphResponse) (us : List String)
    (hchain : FetchChain fetch config.msGraphAPI rs us)
    (hfuel : us.length ≤ fuel) :
    getUserGroupList fetch fuel username config
      = some (.ok (rs.flatMap fun r =>
          r.value.filterMap fun gi => truthyName gi.displayName))
    ∧ requestTrace fetch fuel config.msGraphAPI = us := by
  constructor
  · unfold getUserGroupList
    rw [fetchPagesLoop_of_chain hchain [] fuel hfuel]
    simp [collectGroupNames_eq_flatMap, List.flatMap_map]
  · exact requestTrace_of_chain hchain fuel hfuel

/-- Claim C5 witness: a two-page lookup — the first page linking to the
second, the second without a continuation — returns the display names of
both pages in fetch order, omitting a record without a display name and a
record whose display name is the empty string. -/
theorem getUserGroupList_concatenates_pages_witness :
    getUserGroupList
        (fun url =>
          if url = "https://g/v1.0/me/memberOf" then
            .ok ⟨[⟨some "alpha"⟩, ⟨none⟩], some "https://g/page2"⟩
          else if url = "https://g/page2" then
            .ok ⟨[⟨some "beta"⟩, ⟨some ""⟩], none⟩
          else .error (.errorInstance "Error: 404"))
        3 "alice" (initConfig "https://g/" "tok")
      = some (.ok ["alpha", "beta"])
    ∧ requestTrace
        (fun url =>
          if url = "https://g/v1.0/me/memberOf" then
            .ok ⟨[⟨some "alpha"⟩, ⟨none⟩], some "https://g/page2"⟩
          else if url = "https://g/page2" then
            .ok ⟨[⟨some "beta"⟩, ⟨some ""⟩], none⟩
          else .error (.errorInstance "Error: 404"))
        3 (initConfig "https://g/" "tok").msGraphAPI
      = ["https://g/v1.0/me/memberOf", "https://g/page2"] := by
  have h := getUserGroupList_concatenates_pages
    (fun url =>
      if url = "https://g/v1.0/me/memberOf" then
        .ok ⟨[⟨some "alpha"⟩, ⟨none⟩], some "https://g/page2"⟩
      else if url = "https://g/page2" then
        .ok ⟨[⟨some "beta"⟩, ⟨some ""⟩], none⟩
      else .error (.errorInstance "Error: 404"))
    3 "alice" (initConfig "https://g/" "tok")
    [⟨[⟨some "alpha"⟩, ⟨none⟩], some "https://g/page2"⟩, ⟨[⟨some "beta"⟩, ⟨some ""⟩], none⟩]
    ["https://g/v1.0/me/memberOf", "https://g/page2"]
    (FetchChain.step _ "https://g/page2" _ _ _ rfl rfl
      (FetchChain.last _ _ rfl rfl))
    (by decide)
  exact ⟨h.1.trans rfl, h.2⟩

theorem fetchPagesLoop_of_fails {fetch : String → Except JsValue GraphResponse}
    {url : String} {e : JsValue} {us : List String}
    (h : FetchFails fetch url e us) :
    ∀ (acc : List (List GroupItem)) (fuel : Nat), us.length ≤ fuel →
      fetchPagesLoop fetch fuel url acc = some (.error e) := by
  induction h with
  | here url e hf =>
    intro acc fuel hfuel
    cases fuel with
    | zero => simp at hfuel
    | succ f => simp [fetchPagesLoop, hf]
  | step url nxt r e us hf hn hc ih =>
    intro acc fuel hfuel
    cases fuel with
    | zero => simp at hfuel
    | succ f =>
      have hf' : us.length ≤ f := by
        simp only [List.length_cons] at hfuel
        omega
      simp [fetchPagesLoop, hf, hn, ih (acc ++ [r.value]) f hf']

theorem requestTrace_of_fails {fetch : String → Except JsValue GraphResponse}
    {url : String} {e : JsValue} {us : List String}
    (h : FetchFails fetch url e us) :
    ∀ fuel : Nat, us.length ≤ fuel → requestTrace fetch fuel url = us := by
  induction h with
  | here url e hf =>
    intro fuel hfuel
    cases fuel with
    | zero => simp at hfuel
    | succ f => simp [requestTrace, hf]
  | step url nxt r e us hf hn hc ih =>
    intro fuel hfuel
    cases fuel with
    | zero => simp at hfuel
    | succ f =>
      have hf' : us.length ≤ f := by
        simp only [List.length_cons] at hfuel
        omega
      simp [requestTrace, hf, hn, ih f hf']

/-- Claim C6: when some page fetch of the lookup fails, the whole lookup
aborts with exactly the underlying failure value — unmodified — and the
requests made are exactly the chain of URLs up to and including the
failing one, so the failing request is issued once and never retried. -/
theorem getUserGroupList_propagates_failure
    (fetch : String → Except JsValue GraphResponse) (fuel : Nat)
    (username : String) (config : GraphConfig) (e : JsValue) (us : List String)
    (hfail : FetchFails fetch config.msGraphAPI e us)
    (hfuel : us.length ≤ fuel) :
    getUserGroupList fetch fuel username config = some (.error e)
    ∧ requestTrace fetch fuel config.msGraphAPI = us := by
  constructor
  · unfold getUserGroupList
    rw [fetchPagesLoop_of_fails hfail [] fuel hfuel]
  · exact requestTrace_of_fails hfail fuel hfuel

/-- Claim C6 witness: a lookup whose second page fetch raises an
authorization error returns exactly that error and stops after the two
requests, the failing one last. -/
theorem getUserGroupList_propagates_failure_witness :
    getUserGroupList
        (fun url =>
          if url = "https://g/v1.0/me/memberOf" then
            .ok ⟨[⟨some "alpha"⟩], some "https://g/page2"⟩
          else .error (.errorInstance "Error: token expired"))
        5 "bob" (initConfig "https://g/" "tok")
      = some (.error (.errorInstance "Error: token expired"))
    ∧ requestTrace
        (fun url =>
          if url = "https://g/v1.0/me/memberOf" then
            .ok ⟨[⟨some "alpha"⟩], some "https://g/page2"⟩
          else .error (.errorInstance "Error: token expired"))
        5 (initConfig "https://g/" "tok").msGraphAPI
      = ["https://g/v1.0/me/memberOf", "https://g/page2"] :=
  getUserGroupList_propagates_failure
    (fun url =>
      if url = "https://g/v1.0/me/memberOf" then
        .ok ⟨[⟨some "alpha"⟩], some "https://g/page2"⟩
      else .error (.errorInstance "Error: token expired"))
    5 "bob" (initConfig "https://g/" "tok")
    (.errorInstance "Error: token expired")
    ["https://g/v1.0/me/memberOf", "https://g/page2"]
    (FetchFails.step _ "https://g/page2" ⟨[⟨some "alpha"⟩], some "https://g/page2"⟩ _ _
      rfl rfl (FetchFails.here _ _ rfl))
    (by decide)

end PaiUserView
